import Mathlib

/-!
Verification of the chromite commit-queue core: the validation-pool
dependency resolver/applier, the tree-status oracle, and the remote
try-job submission client.

The pool applier and tree-status oracle live in
`chromite/buildbot/validation_pool.py`, which is not among the sampled
sources; only its unit tests (`src/buildbot/validation_pool_unittest.py`)
are.  The model below is therefore reconstructed from the specification's
algorithm description, with every observable behaviour that the unit
tests pin down (call patterns recorded through mox mocks, return values,
the `changes_that_failed_to_apply_earlier` attribute) taken as
authoritative where the two disagree.  The remote submission client
(`src/buildbot/remote_try.py`) is embedded directly from its source.
-/

namespace Chromite

/-- Outcome of the apply primitive for one change: the tagged result the
resolver branches on.  `rejectedPermanently` corresponds to a plain
`ApplyPatchException`; `dependencyInFlight` to
`ApplyPatchException(..., type=TYPE_REBASE_TO_PATCH_INFLIGHT)`. -/
inductive ApplyOutcome where
  | applied
  | rejectedPermanently
  | dependencyInFlight
  deriving DecidableEq, Repr

/-- A change in the validation pool: a `GerritPatch` restricted to the
fields the pool walk reads.  `gerritDeps` is what
`GerritDependencies(build_root)` returns for it, and `applyOutcome` is
the behaviour of its `Apply(build_root, trivial=True)` call. -/
structure Change where
  revision : String
  project : String
  gerritDeps : List String
  applyOutcome : ApplyOutcome
  deriving DecidableEq, Repr

/-- Observable calls made by one `ApplyPoolIntoRepo` run, in order:
dependency queries (`GerritDependencies(build_root)`), apply attempts
(`Apply(build_root, trivial=True)`), already-landed oracle queries
(`gerrit_helper.IsRevisionCommitted(project, revision)`), and failure
notifications (`HandleCouldNotApply(None, build_log, dryrun=...)`). -/
inductive Event where
  | queryDeps (revision buildRoot : String)
  | applyAttempt (revision : String)
  | oracleQuery (project revision : String)
  | hookCall (revision buildLog : String) (dryrun : Bool)
  deriving DecidableEq, Repr

/-- `true` exactly on failure-notification events. -/
def Event.isHook : Event → Bool
  | .hookCall _ _ _ => true
  | _ => false

/-- `true` exactly on failure-notification events for `rev`. -/
def Event.isHookFor (rev : String) : Event → Bool
  | .hookCall r _ _ => r == rev
  | _ => false

/-- `true` exactly on apply-attempt events. -/
def Event.isApply : Event → Bool
  | .applyAttempt _ => true
  | _ => false

/-- Mutable state threaded through one pool walk: the changes applied so
far (in apply order), the changes whose own apply was rejected
permanently (the roots that will be reported through the failure hook),
the changes skipped because a dependency was unmet or had already
failed (cascade failures: not reported), the changes deferred by an
in-flight dependency, and the call trace so far. -/
structure ApplyState where
  applied : List String
  failedRoots : List String
  blocked : List String
  deferred : List String
  trace : List Event
  deriving DecidableEq, Repr

/-- The empty state a run starts from. -/
def initState : ApplyState := ⟨[], [], [], [], []⟩

/-- Look a revision up in the pool (the dependency ids returned by
`GerritDependencies` are matched against the `revision` field of the
pooled changes). -/
def findInPool (pool : List Change) (rev : String) : Option Change :=
  pool.find? (fun c => c.revision == rev)

/-- Whether `rev` has already been classified by this run. -/
def ApplyState.touched (st : ApplyState) (rev : String) : Bool :=
  st.applied.contains rev || st.failedRoots.contains rev ||
    st.blocked.contains rev || st.deferred.contains rev

/-- Invoke the apply primitive on `c` and classify the tagged outcome:
`Applied` marks it applied, a permanent rejection records it as a root
failure (to be reported once, at the end of the run), and an in-flight
dependency defers it. -/
def applyChange (c : Change) (st : ApplyState) : ApplyState :=
  let st1 := { st with trace := st.trace ++ [Event.applyAttempt c.revision] }
  match c.applyOutcome with
  | .applied => { st1 with applied := st1.applied ++ [c.revision] }
  | .rejectedPermanently => { st1 with failedRoots := st1.failedRoots ++ [c.revision] }
  | .dependencyInFlight => { st1 with deferred := st1.deferred ++ [c.revision] }

/-- Modelled from the spec: the dependency scan of
`ValidationPool.ApplyPoolIntoRepo` (missing source file
`chromite/buildbot/validation_pool.py`), walking one change's declared
dependency ids.  A dependency found in the pool is taken as satisfied if
already applied, aborts the branch if it already failed, was blocked or
was deferred, and is otherwise applied directly — the unit test
`testMoreComplexDepApplyPoolIntoRepo` forbids querying the dependency's
own `GerritDependencies`, so there is no recursive descent.  A
dependency absent from the pool is checked against the already-landed
oracle with the requesting change's project; if not landed the branch is
aborted with no failure-hook call (`testSimpleDepApplyPoolIntoRepo`,
second definition).  Returns the new state and whether every dependency
was satisfied. -/
def resolveDeps (landed : String → String → Bool) (pool : List Change)
    (project : String) : List String → ApplyState → ApplyState × Bool
  | [], st => (st, true)
  | d :: rest, st =>
    match findInPool pool d with
    | some dc =>
      if st.applied.contains d then
        resolveDeps landed pool project rest st
      else if st.failedRoots.contains d || st.blocked.contains d ||
          st.deferred.contains d then
        (st, false)
      else
        let st1 := applyChange dc st
        if st1.applied.contains d then
          resolveDeps landed pool project rest st1
        else
          (st1, false)
    | none =>
      let st1 := { st with trace := st.trace ++ [Event.oracleQuery project d] }
      if landed project d then
        resolveDeps landed pool project rest st1
      else
        (st1, false)

/-- Modelled from the spec: one iteration of the top-level pool walk of
`ValidationPool.ApplyPoolIntoRepo`.  A change already classified is
skipped without any call; otherwise its dependency ids are queried
against the build root, its dependencies are scanned, and on success its
own apply is attempted; on an unmet or failed dependency it is recorded
as blocked (cascade failure, not reported through the hook). -/
def processChange (landed : String → String → Bool) (pool : List Change)
    (buildRoot : String) (st : ApplyState) (c : Change) : ApplyState :=
  if st.touched c.revision then st
  else
    let st1 := { st with trace := st.trace ++ [Event.queryDeps c.revision buildRoot] }
    let res := resolveDeps landed pool c.project c.gerritDeps st1
    if res.2 then
      if res.1.touched c.revision then res.1 else applyChange c res.1
    else
      { res.1 with blocked := res.1.blocked ++ [c.revision] }

/-- The validation pool: the ordered changes received from the review
service, plus the `build_log` and `dryrun` fields forwarded to the
failure hook. -/
structure ValidationPool where
  changes : List Change
  buildLog : String
  dryrun : Bool
  deriving Repr

/-- Result of one `ApplyPoolIntoRepo` run: its boolean return value, the
final classification of every change, the deferred set exposed as
`changes_that_failed_to_apply_earlier`, and the full call trace
(failure-hook notifications come at the end of the run, after the whole
pool has been walked, as the mox expectation order of
`testSimpleDepFailedApplyPoolIntoRepo` records). -/
structure PoolResult where
  success : Bool
  applied : List String
  failedRoots : List String
  blocked : List String
  changes_that_failed_to_apply_earlier : List String
  trace : List Event
  deriving DecidableEq, Repr

/-- Modelled from the spec: `ValidationPool.ApplyPoolIntoRepo(buildroot)`
of the missing `chromite/buildbot/validation_pool.py`.  Walks the pool
in order, then reports each permanently rejected root once through
`HandleCouldNotApply(None, build_log, dryrun)`.  The boolean result is
`true` exactly when at least one change was applied: the unit tests
assert `False` for the unmet-dependency run (nothing applied) and `True`
for every run that applied something, so the spec's
"always `true` once the pool is fully walked" is overridden here. -/
def ApplyPoolIntoRepo (landed : String → String → Bool)
    (pool : ValidationPool) (buildRoot : String) : PoolResult :=
  let st := pool.changes.foldl (processChange landed pool.changes buildRoot) initState
  let hooks := st.failedRoots.map (fun r => Event.hookCall r pool.buildLog pool.dryrun)
  { success := !st.applied.isEmpty
    applied := st.applied
    failedRoots := st.failedRoots
    blocked := st.blocked
    changes_that_failed_to_apply_earlier := st.deferred
    trace := st.trace ++ hooks }

/-- An already-landed oracle with empty history. -/
def landedNone : String → String → Bool := fun _ _ => false

/-- One response of the tree-status endpoint
(`https://chromiumos-status.appspot.com/current?format=json`): the HTTP
status code (`getcode()`) and the two fields of the JSON payload read on
success. -/
structure StatusResponse where
  code : Nat
  message : String
  generalState : String
  deriving DecidableEq, Repr

/-- Whether an HTTP status code is a retryable server error (5xx). -/
def isServerError (code : Nat) : Bool := 500 ≤ code && code < 600

/-- Modelled from the spec: the `general_state` mapping performed by
`ValidationPool._IsTreeOpen` of the missing
`chromite/buildbot/validation_pool.py`: `open` and `throttled` permit
landing, anything else does not. -/
def generalStateToBool (s : String) : Bool := s == "open" || s == "throttled"

/-- Modelled from the spec: `ValidationPool._IsTreeOpen()` of the
missing `chromite/buildbot/validation_pool.py`, run against the sequence
of responses the endpoint will serve.  A 5xx response causes an
immediate identical retry; the first non-server-error response is parsed
and decides the result.  Returns the boolean result together with the
number of polls it took, or `none` when every supplied response was a
server error (the loop would still be retrying). -/
def IsTreeOpen : List StatusResponse → Option (Bool × Nat)
  | [] => none
  | r :: rest =>
    if isServerError r.code then
      match IsTreeOpen rest with
      | some (b, n) => some (b, n + 1)
      | none => none
    else
      some (generalStateToBool r.generalState, 1)

/-- Lexicographic order on code points of two character lists: Python's
string comparison. -/
def charsLe : List Char → List Char → Bool
  | [], _ => true
  | _ :: _, [] => false
  | x :: xs, y :: ys =>
    if x.toNat < y.toNat then true
    else if y.toNat < x.toNat then false
    else charsLe xs ys

/-- Python's `<=` on strings: lexicographic on code points. -/
def strLe (a b : String) : Bool := charsLe a.data b.data

/-- Insert a key-value pair into a list sorted by key (stable: an equal
key goes first, matching Python's stable `sorted`). -/
def insertByKey (p : String × String) :
    List (String × String) → List (String × String)
  | [] => [p]
  | q :: rest => if strLe p.1 q.1 then p :: q :: rest else q :: insertByKey p rest

/-- Sort a key-value list by key: Python's `sorted(values.iteritems())`
for the distinct-key dictionaries built by `RemoteTryJob.__init__`. -/
def sortByKey (l : List (String × String)) : List (String × String) :=
  l.foldr insertByKey []

/-- The `values` dictionary assembled by `RemoteTryJob.__init__`:
submitter user name, project user email, the waterfall job name (the
gerrit patch ids joined with commas), the same ids space-joined as the
issue list, and the target bot configs joined with commas. -/
def tryjobValues (user email : String) (gerritPatches bots : List String) :
    List (String × String) :=
  [("user", user),
   ("email", email),
   ("name", String.intercalate "," gerritPatches),
   ("issue", String.intercalate " " gerritPatches),
   ("bot", String.intercalate "," bots)]

/-- `self.description` of `RemoteTryJob.__init__`: the newline-joined
`key=value` lines of `values`, sorted by key. -/
def tryjobDescription (user email : String)
    (gerritPatches bots : List String) : String :=
  String.intercalate "\n"
    ((sortByKey (tryjobValues user email gerritPatches bots)).map
      (fun kv => kv.1 ++ "=" ++ kv.2))

/-- A UTC wall-clock instant (`datetime.datetime.utcnow()`), to second
resolution. -/
structure UtcTime where
  year : Nat
  month : Nat
  day : Nat
  hour : Nat
  minute : Nat
  second : Nat
  deriving DecidableEq, Repr

/-- Zero-pad a number to two digits, as strftime's `%m`, `%d`, `%H`,
`%M`, `%S` do. -/
def pad2 (n : Nat) : String :=
  if n < 10 then "0" ++ toString n else toString n

/-- Zero-pad a year to four digits, as strftime's `%Y` does for the
years in range. -/
def pad4 (n : Nat) : String :=
  if n < 10 then "000" ++ toString n
  else if n < 100 then "00" ++ toString n
  else if n < 1000 then "0" ++ toString n
  else toString n

/-- `current_time.strftime("%Y.%m.%d_%H.%M.%S")` of
`RemoteTryJob._Submit`. -/
def timestampString (t : UtcTime) : String :=
  pad4 t.year ++ "." ++ pad2 t.month ++ "." ++ pad2 t.day ++ "_" ++
    pad2 t.hour ++ "." ++ pad2 t.minute ++ "." ++ pad2 t.second

/-- The side effects `RemoteTryJob._Submit` / `Submit` perform, in
order: the external git/repository primitives it calls, the descriptor
file write, and the scratch-directory removal. -/
inductive GitEffect where
  | cloneGitRepo (dest url : String)
  | prepForChanges (dest : String)
  | writeFile (path content : String)
  | gitAdd (file cwd : String)
  | gitCommit (message cwd : String)
  | gitPushWithRetry (branch cwd : String) (dryrun : Bool)
  | rmtree (dir : String)
  deriving DecidableEq, Repr

/-- `RemoteTryJob._Submit(dryrun)` as its ordered effect trace: clone
the tryjob repo from `SSH_URL` (`constants.GERRIT_SSH_URL` joined with
`chromiumos/tryjobs`), prepare it for changes, write the descriptor to
`<user>.<timestamp>` inside the clone, `git add` it, `git commit` with
the descriptor text as message, and push `PUSH_BRANCH` with retry,
forwarding `dryrun` to the push alone. -/
def submitEffects (user email : String) (gerritPatches bots : List String)
    (gerritSshUrl pushBranch tryjobRepo : String) (now : UtcTime)
    (dryrun : Bool) : List GitEffect :=
  let description := tryjobDescription user email gerritPatches bots
  let fileName := user ++ "." ++ timestampString now
  let fullpath := tryjobRepo ++ "/" ++ fileName
  [GitEffect.cloneGitRepo tryjobRepo (gerritSshUrl ++ "/chromiumos/tryjobs"),
   GitEffect.prepForChanges tryjobRepo,
   GitEffect.writeFile fullpath description,
   GitEffect.gitAdd fileName tryjobRepo,
   GitEffect.gitCommit description tryjobRepo,
   GitEffect.gitPushWithRetry pushBranch tryjobRepo dryrun]

/-- `RemoteTryJob.Submit(workdir, dryrun)` as its ordered effect trace:
the tryjob repo is the caller's `workdir` when supplied, a fresh
temporary directory otherwise; `_Submit(dryrun)` runs either way, and
the scratch directory is removed afterwards only when the caller did not
supply (and so does not own) the workdir. -/
def submit (user email : String) (gerritPatches bots : List String)
    (gerritSshUrl pushBranch : String) (workdir : Option String)
    (tempdir : String) (now : UtcTime) (dryrun : Bool) : List GitEffect :=
  let repo := workdir.getD tempdir
  submitEffects user email gerritPatches bots gerritSshUrl pushBranch repo
      now dryrun ++
    (if workdir.isNone then [GitEffect.rmtree repo] else [])

/-- The single-change pool of the unmet-dependency unit test
(`testSimpleDepApplyPoolIntoRepo`, second definition): `ChangeId2`
declares a dependency on `ChangeId1`, which is neither pooled nor
landed. -/
def unmetPool : ValidationPool :=
  ⟨[⟨"ChangeId2", "fake_project", ["ChangeId1"], ApplyOutcome.applied⟩],
    "log", false⟩

/-- The run of the unmet-dependency pool against an empty landed
history. -/
def unmetRun : PoolResult := ApplyPoolIntoRepo landedNone unmetPool "fakebuildroot"

/-- The unmet-dependency scenario extended with a transitive dependent:
`ChangeId3` depends on `ChangeId2`, whose own dependency `ChangeId1` is
neither pooled nor landed. -/
def unmetChainPool : ValidationPool :=
  ⟨[⟨"ChangeId2", "fake_project", ["ChangeId1"], ApplyOutcome.applied⟩,
    ⟨"ChangeId3", "fake_project", ["ChangeId2"], ApplyOutcome.applied⟩],
    "log", false⟩

/-- The run of the extended unmet-dependency pool. -/
def unmetChainRun : PoolResult :=
  ApplyPoolIntoRepo landedNone unmetChainPool "fakebuildroot"

/-- The four-change pool of `testMoreComplexDepApplyPoolIntoRepo`:
received in the order 1, 2, 3, 4 with 1 depending on 2, 3 depending on
1 and 2, and 4 independent. -/
def complexPool : ValidationPool :=
  ⟨[⟨"ChangeId1", "p", ["ChangeId2"], ApplyOutcome.applied⟩,
    ⟨"ChangeId2", "p", [], ApplyOutcome.applied⟩,
    ⟨"ChangeId3", "p", ["ChangeId1", "ChangeId2"], ApplyOutcome.applied⟩,
    ⟨"ChangeId4", "p", [], ApplyOutcome.applied⟩],
    "log", false⟩

/-- The run of the four-change pool. -/
def complexRun : PoolResult :=
  ApplyPoolIntoRepo landedNone complexPool "fakebuildroot"

/-- The pool of `testSimpleDepFailedApplyPoolIntoRepo`, extended with a
transitive dependent `ChangeId5` of the cascade-failed `ChangeId2`:
`ChangeId1` is rejected permanently by its apply, `ChangeId2` depends on
it, `ChangeId3` is independent, and `ChangeId4` fails with the
in-flight-dependency outcome. -/
def failPool : ValidationPool :=
  ⟨[⟨"ChangeId1", "p", [], ApplyOutcome.rejectedPermanently⟩,
    ⟨"ChangeId2", "p", ["ChangeId1"], ApplyOutcome.applied⟩,
    ⟨"ChangeId3", "p", [], ApplyOutcome.applied⟩,
    ⟨"ChangeId4", "p", [], ApplyOutcome.dependencyInFlight⟩,
    ⟨"ChangeId5", "p", ["ChangeId2"], ApplyOutcome.applied⟩],
    "log", false⟩

/-- The run of the failing-apply pool. -/
def failRun : PoolResult := ApplyPoolIntoRepo landedNone failPool "fakebuildroot"

/-- The three-change chain A → B → C (received in that order), in which
change B is demanded as a dependency of A before B's own dependency C
has been applied. -/
def chainB : Change := ⟨"ChangeIdB", "p", ["ChangeIdC"], ApplyOutcome.applied⟩

/-- The chain pool [A, B, C] with A depending on B and B on C. -/
def chainPool : ValidationPool :=
  ⟨[⟨"ChangeIdA", "p", ["ChangeIdB"], ApplyOutcome.applied⟩,
    chainB,
    ⟨"ChangeIdC", "p", [], ApplyOutcome.applied⟩],
    "log", false⟩

/-- The run of the chain pool. -/
def chainRun : PoolResult := ApplyPoolIntoRepo landedNone chainPool "fakebuildroot"

end Chromite

namespace Chromite

/-- C1: the claim asserts that with a single pooled change whose
declared dependency is neither in the pool nor landed, the run still
returns `true`; on the modelled code (pinned by the unit test's
`assertFalse`) the run returns `false`. -/
theorem c1_cx_unmet_dep_run_not_success : unmetRun.success = false := by decide

/-- C1 (amended): for a pool containing the single change `ChangeId2`
whose declared dependency `ChangeId1` is neither pooled nor landed, the
change is never apply-attempted, nothing is applied, and
`ApplyPoolIntoRepo` returns `false` (the run reports success only when
at least one change was applied). -/
theorem c1_unmet_dep_rejected_and_returns_false :
    Event.applyAttempt "ChangeId2" ∉ unmetRun.trace ∧
    unmetRun.applied = [] ∧
    unmetRun.success = false := by decide

/-- C2: the claim asserts the failure hook fires exactly once for the
change with the unmet dependency; on the modelled code (the unit test
expects no `HandleCouldNotApply` call) it fires zero times. -/
theorem c2_cx_no_hook_for_unmet_dep :
    unmetRun.trace.filter Event.isHook = [] ∧
    (unmetRun.trace.filter Event.isHook).length ≠ 1 := by decide

/-- C3: the claim asserts every applied change has its dependency
identifiers queried before its apply; in the four-change diamond run,
`ChangeId2` is applied (on behalf of `ChangeId1`) yet its dependencies
are never queried. -/
theorem c3_cx_dep_applied_without_query :
    Event.applyAttempt "ChangeId2" ∈ complexRun.trace ∧
    Event.queryDeps "ChangeId2" "fakebuildroot" ∉ complexRun.trace := by decide

/-- C3 (amended): in the diamond run, dependency identifiers are
queried against the build root exactly for the changes attempted by the
top-level pool walk (`ChangeId1`, `ChangeId3`, `ChangeId4`), each query
preceding the change's own apply attempt, while `ChangeId2` — applied
because `ChangeId1` depends on it — is applied directly without its own
dependencies ever being queried. -/
theorem c3_top_level_queries_only :
    complexRun.trace =
      [Event.queryDeps "ChangeId1" "fakebuildroot",
       Event.applyAttempt "ChangeId2",
       Event.applyAttempt "ChangeId1",
       Event.queryDeps "ChangeId3" "fakebuildroot",
       Event.applyAttempt "ChangeId3",
       Event.queryDeps "ChangeId4" "fakebuildroot",
       Event.applyAttempt "ChangeId4"] := by decide

/-- C4: the claim asserts every dependency of a change is applied (or
confirmed landed) strictly before that change's apply is attempted; in
the chain pool A → B → C, change B is in the pool with declared
dependency C, yet B's apply attempt precedes C's (B is applied on
behalf of A before C has been touched, nothing is landed upstream). -/
theorem c4_cx_chain_dep_applied_after_dependent :
    chainB ∈ chainPool.changes ∧
    "ChangeIdC" ∈ chainB.gerritDeps ∧
    Event.applyAttempt "ChangeIdB" ∈ chainRun.trace ∧
    Event.applyAttempt "ChangeIdC" ∈ chainRun.trace ∧
    chainRun.trace.indexOf (Event.applyAttempt "ChangeIdB") <
      chainRun.trace.indexOf (Event.applyAttempt "ChangeIdC") := by decide

/-- C5: when `ChangeId1` is rejected permanently by its apply, its
direct dependent `ChangeId2` and transitive dependent `ChangeId5` are
not applied, the unrelated independent `ChangeId3` still is, the
failure hook fires exactly once — for the root `ChangeId1`, with the
accumulated build log `"log"` and the dry-run flag `false` — and the
run still returns `true`. -/
theorem c5_permanent_failure_isolated_single_hook :
    failRun.applied = ["ChangeId3"] ∧
    "ChangeId2" ∉ failRun.applied ∧
    "ChangeId5" ∉ failRun.applied ∧
    failRun.trace.filter Event.isHook =
      [Event.hookCall "ChangeId1" "log" false] ∧
    failRun.success = true := by decide

/-- C6: `ChangeId4`, whose apply fails with the in-flight-dependency
outcome, ends up in `changes_that_failed_to_apply_earlier`, the failure
hook is never invoked for it, and the run still returns `true`. -/
theorem c6_inflight_deferred_no_hook_success :
    failRun.changes_that_failed_to_apply_earlier = ["ChangeId4"] ∧
    failRun.trace.filter (Event.isHookFor "ChangeId4") = [] ∧
    failRun.success = true := by decide

end Chromite

namespace Chromite

/-- C7: `_IsTreeOpen` maps the payload's `general_state` to its result:
a successful response with `open` yields `true`, `throttled` yields
`true`, and any other value (notably `closed`) yields `false`. -/
theorem c7_general_state_mapping (m s : String) :
    IsTreeOpen [⟨200, m, "open"⟩] = some (true, 1) ∧
    IsTreeOpen [⟨200, m, "throttled"⟩] = some (true, 1) ∧
    (s ≠ "open" → s ≠ "throttled" →
      IsTreeOpen [⟨200, m, s⟩] = some (false, 1)) := by
  refine ⟨rfl, rfl, fun h1 h2 => ?_⟩
  have e1 : (s == "open") = false := beq_eq_false_iff_ne.mpr h1
  have e2 : (s == "throttled") = false := beq_eq_false_iff_ne.mpr h2
  simp [IsTreeOpen, isServerError, generalStateToBool, e1, e2]

/-- C7 witness: the mapping evaluated at `general_state = "closed"`. -/
theorem c7_general_state_mapping_witness :
    (("closed" : String) ≠ "open" ∧ ("closed" : String) ≠ "throttled") ∧
    IsTreeOpen [⟨200, "Tree is closed", "closed"⟩] = some (false, 1) :=
  ⟨⟨by decide, by decide⟩,
    (c7_general_state_mapping "Tree is closed" "closed").2.2
      (by decide) (by decide)⟩

/-- C8: a server-error (5xx) response never decides the result — the
identical request is retried against the rest of the response sequence,
with the poll count bumped — and two consecutive 500 responses followed
by a 200 response whose payload has `general_state = "open"` yield
`true` after exactly three polls. -/
theorem c8_server_error_retry :
    (∀ (r : StatusResponse) (rest : List StatusResponse),
      isServerError r.code = true →
      IsTreeOpen (r :: rest) =
        (IsTreeOpen rest).map (fun p => (p.1, p.2 + 1))) ∧
    IsTreeOpen
      [⟨500, "err1", "e"⟩, ⟨500, "err2", "e"⟩,
       ⟨200, "Tree is open", "open"⟩] = some (true, 3) := by
  constructor
  · intro r rest h
    simp only [IsTreeOpen, h, if_true]
    cases hr : IsTreeOpen rest with
    | none => simp
    | some p => cases p with | mk b n => simp
  · rfl

/-- C8 witness: the retry step evaluated at a concrete 500 response
followed by a concrete success response. -/
theorem c8_server_error_retry_witness :
    isServerError (500 : Nat) = true ∧
    IsTreeOpen [⟨500, "err", "e"⟩, ⟨200, "msg", "open"⟩] =
      (IsTreeOpen [⟨200, "msg", "open"⟩]).map (fun p => (p.1, p.2 + 1)) :=
  ⟨by decide,
    c8_server_error_retry.1 ⟨500, "err", "e"⟩ [⟨200, "msg", "open"⟩]
      (by decide)⟩

end Chromite

namespace Chromite

/-- C9: `RemoteTryJob.Submit` writes the job descriptor — the
newline-joined `key=value` lines for user, email, name, issue and bot,
sorted by key — to a file named `<submitter>.<UTC timestamp
"YYYY.MM.DD_HH.MM.SS">` inside the cloned submission repository, and
commits it with the identical descriptor text as the commit message, so
the file content and the commit message are equal; concretely, the
descriptor lines come out key-sorted and the timestamp zero-padded. -/
theorem c9_descriptor_file_and_commit_message
    (user email : String) (gerritPatches bots : List String)
    (gerritSshUrl pushBranch tryjobRepo : String) (now : UtcTime)
    (dryrun : Bool) :
    ((submitEffects user email gerritPatches bots gerritSshUrl pushBranch
        tryjobRepo now dryrun).get? 2 =
      some (GitEffect.writeFile
        (tryjobRepo ++ "/" ++ (user ++ "." ++ timestampString now))
        (tryjobDescription user email gerritPatches bots))) ∧
    ((submitEffects user email gerritPatches bots gerritSshUrl pushBranch
        tryjobRepo now dryrun).get? 4 =
      some (GitEffect.gitCommit
        (tryjobDescription user email gerritPatches bots) tryjobRepo)) ∧
    tryjobDescription "user1" "u@x.com" ["p1", "p2"] ["b1", "b2"] =
      "bot=b1,b2\nemail=u@x.com\nissue=p1 p2\nname=p1,p2\nuser=user1" ∧
    timestampString ⟨2011, 7, 4, 9, 5, 30⟩ = "2011.07.04_09.05.30" :=
  ⟨rfl, rfl, by decide, by decide⟩

/-- C10: `Submit(workdir, dryrun := true)` still clones the submission
repository into the caller's workdir, still writes, stages and commits
the descriptor file there (and, the workdir being caller-owned, removes
nothing); the `dryrun` flag only reaches the final push-with-retry
step, every effect before the push being identical to a wet run. -/
theorem c10_dryrun_only_suppresses_push
    (user email : String) (gerritPatches bots : List String)
    (gerritSshUrl pushBranch workdir tempdir : String) (now : UtcTime) :
    submit user email gerritPatches bots gerritSshUrl pushBranch
        (some workdir) tempdir now true =
      submitEffects user email gerritPatches bots gerritSshUrl pushBranch
        workdir now true ∧
    (submitEffects user email gerritPatches bots gerritSshUrl pushBranch
        workdir now true).dropLast =
      (submitEffects user email gerritPatches bots gerritSshUrl pushBranch
        workdir now false).dropLast ∧
    (submitEffects user email gerritPatches bots gerritSshUrl pushBranch
        workdir now true).getLast? =
      some (GitEffect.gitPushWithRetry pushBranch workdir true) ∧
    GitEffect.cloneGitRepo workdir (gerritSshUrl ++ "/chromiumos/tryjobs") ∈
      submit user email gerritPatches bots gerritSshUrl pushBranch
        (some workdir) tempdir now true ∧
    GitEffect.writeFile
        (workdir ++ "/" ++ (user ++ "." ++ timestampString now))
        (tryjobDescription user email gerritPatches bots) ∈
      submit user email gerritPatches bots gerritSshUrl pushBranch
        (some workdir) tempdir now true ∧
    GitEffect.gitCommit (tryjobDescription user email gerritPatches bots)
        workdir ∈
      submit user email gerritPatches bots gerritSshUrl pushBranch
        (some workdir) tempdir now true := by
  refine ⟨by simp [submit], rfl, rfl, ?_, ?_, ?_⟩ <;>
    simp [submit, submitEffects]

end Chromite

namespace Chromite

/-- Classifying an apply outcome appends only a non-hook event to the
trace, so it preserves hook-freedom. -/
lemma applyChange_hookFree (c : Change) (st : ApplyState)
    (hT : st.trace.filter Event.isHook = []) :
    (applyChange c st).trace.filter Event.isHook = [] := by
  obtain ⟨rev, proj, deps, out⟩ := c
  cases out <;> simp [applyChange, List.filter_append, hT, Event.isHook]

/-- Classifying an apply outcome only ever adds the classified pooled
change itself to the root-failure set, and only on a permanent
rejection. -/
lemma applyChange_failedRoots (pool : List Change) (c : Change) (hc : c ∈ pool)
    (st : ApplyState)
    (hF : ∀ r ∈ st.failedRoots, ∃ ch ∈ pool, ch.revision = r ∧
      ch.applyOutcome = ApplyOutcome.rejectedPermanently) :
    ∀ r ∈ (applyChange c st).failedRoots, ∃ ch ∈ pool, ch.revision = r ∧
      ch.applyOutcome = ApplyOutcome.rejectedPermanently := by
  obtain ⟨rev, proj, deps, out⟩ := c
  cases out with
  | applied => simpa [applyChange] using hF
  | rejectedPermanently =>
    intro r hr
    simp [applyChange] at hr
    rcases hr with hr | hr
    · exact hF r hr
    · exact ⟨⟨rev, proj, deps, ApplyOutcome.rejectedPermanently⟩, hc,
        by simp [hr]⟩
  | dependencyInFlight => simpa [applyChange] using hF

/-- The dependency scan keeps the trace hook-free and keeps every
recorded root failure a pooled change with a permanently rejecting
apply. -/
lemma resolveDeps_inv (landed : String → String → Bool) (pool : List Change)
    (project : String) (deps : List String) (st : ApplyState)
    (hT : st.trace.filter Event.isHook = [])
    (hF : ∀ r ∈ st.failedRoots, ∃ ch ∈ pool, ch.revision = r ∧
      ch.applyOutcome = ApplyOutcome.rejectedPermanently) :
    ((resolveDeps landed pool project deps st).1.trace.filter Event.isHook
        = []) ∧
    ∀ r ∈ (resolveDeps landed pool project deps st).1.failedRoots,
      ∃ ch ∈ pool, ch.revision = r ∧
        ch.applyOutcome = ApplyOutcome.rejectedPermanently := by
  induction deps generalizing st with
  | nil => exact ⟨hT, hF⟩
  | cons d rest ih =>
    simp only [resolveDeps]
    cases hfind : findInPool pool d with
    | some dc =>
      have hmem : dc ∈ pool := List.mem_of_find?_eq_some hfind
      by_cases h1 : st.applied.contains d = true
      · simp only [h1, if_true]
        exact ih st hT hF
      · simp only [h1, if_false, Bool.false_eq_true]
        by_cases h2 : (st.failedRoots.contains d || st.blocked.contains d ||
            st.deferred.contains d) = true
        · simp only [h2, if_true]
          exact ⟨hT, hF⟩
        · simp only [h2, if_false, Bool.false_eq_true]
          have hT1 := applyChange_hookFree dc st hT
          have hF1 := applyChange_failedRoots pool dc hmem st hF
          by_cases h3 : (applyChange dc st).applied.contains d = true
          · simp only [h3, if_true]
            exact ih _ hT1 hF1
          · simp only [h3, if_false, Bool.false_eq_true]
            exact ⟨hT1, hF1⟩
    | none =>
      have hT1 : ((st.trace ++ [Event.oracleQuery project d]).filter
          Event.isHook) = [] := by
        simp [List.filter_append, hT, Event.isHook]
      by_cases hl : landed project d = true
      · simp only [hl, if_true]
        exact ih _ hT1 hF
      · simp only [hl, if_false, Bool.false_eq_true]
        exact ⟨hT1, hF⟩

/-- One top-level walk step keeps the trace hook-free and keeps every
recorded root failure a pooled change with a permanently rejecting
apply. -/
lemma processChange_inv (landed : String → String → Bool) (pool : List Change)
    (buildRoot : String) (c : Change) (hc : c ∈ pool) (st : ApplyState)
    (hT : st.trace.filter Event.isHook = [])
    (hF : ∀ r ∈ st.failedRoots, ∃ ch ∈ pool, ch.revision = r ∧
      ch.applyOutcome = ApplyOutcome.rejectedPermanently) :
    ((processChange landed pool buildRoot st c).trace.filter Event.isHook
        = []) ∧
    ∀ r ∈ (processChange landed pool buildRoot st c).failedRoots,
      ∃ ch ∈ pool, ch.revision = r ∧
        ch.applyOutcome = ApplyOutcome.rejectedPermanently := by
  simp only [processChange]
  by_cases h0 : st.touched c.revision = true
  · simp only [h0, if_true]
    exact ⟨hT, hF⟩
  · simp only [h0, if_false, Bool.false_eq_true]
    have hT1 : ((st.trace ++ [Event.queryDeps c.revision buildRoot]).filter
        Event.isHook) = [] := by
      simp [List.filter_append, hT, Event.isHook]
    obtain ⟨hT2, hF2⟩ := resolveDeps_inv landed pool c.project c.gerritDeps
      { st with trace := st.trace ++ [Event.queryDeps c.revision buildRoot] }
      hT1 hF
    by_cases h1 : (resolveDeps landed pool c.project c.gerritDeps
        { st with
          trace := st.trace ++ [Event.queryDeps c.revision buildRoot] }).2
        = true
    · simp only [h1, if_true]
      by_cases h2 : (resolveDeps landed pool c.project c.gerritDeps
          { st with
            trace := st.trace ++ [Event.queryDeps c.revision buildRoot] }).1.touched
          c.revision = true
      · simp only [h2, if_true]
        exact ⟨hT2, hF2⟩
      · simp only [h2, if_false, Bool.false_eq_true]
        exact ⟨applyChange_hookFree c _ hT2,
          applyChange_failedRoots pool c hc _ hF2⟩
    · simp only [h1, if_false, Bool.false_eq_true]
      exact ⟨hT2, hF2⟩

/-- The whole pool walk keeps the trace hook-free and keeps every
recorded root failure a pooled change with a permanently rejecting
apply. -/
lemma foldl_inv (landed : String → String → Bool) (pool : List Change)
    (buildRoot : String) (l : List Change) (hl : ∀ c ∈ l, c ∈ pool)
    (st : ApplyState)
    (hT : st.trace.filter Event.isHook = [])
    (hF : ∀ r ∈ st.failedRoots, ∃ ch ∈ pool, ch.revision = r ∧
      ch.applyOutcome = ApplyOutcome.rejectedPermanently) :
    ((l.foldl (processChange landed pool buildRoot) st).trace.filter
        Event.isHook = []) ∧
    ∀ r ∈ (l.foldl (processChange landed pool buildRoot) st).failedRoots,
      ∃ ch ∈ pool, ch.revision = r ∧
        ch.applyOutcome = ApplyOutcome.rejectedPermanently := by
  induction l generalizing st with
  | nil => exact ⟨hT, hF⟩
  | cons c cs ih =>
    simp only [List.foldl_cons]
    obtain ⟨hT1, hF1⟩ := processChange_inv landed pool buildRoot c
      (hl c (List.mem_cons_self c cs)) st hT hF
    exact ih (fun x hx => hl x (List.mem_cons_of_mem c hx)) _ hT1 hF1

/-- C2 (amended): the failure hook never fires in a run over a pool
with no permanently rejecting change — in particular it fires zero
times (not once) for a change whose dependency is absent from both the
pool and the landed history, and therefore also never for a transitive
dependent of the same root cause. -/
theorem c2_no_hook_without_permanent_rejection
    (landed : String → String → Bool) (pool : ValidationPool)
    (buildRoot : String)
    (h : ∀ c ∈ pool.changes,
      c.applyOutcome ≠ ApplyOutcome.rejectedPermanently) :
    (ApplyPoolIntoRepo landed pool buildRoot).trace.filter Event.isHook
      = [] := by
  obtain ⟨hT, hF⟩ := foldl_inv landed pool.changes buildRoot pool.changes
    (fun c hc => hc) initState (by simp [initState]) (by simp [initState])
  have hempty : (pool.changes.foldl
      (processChange landed pool.changes buildRoot) initState).failedRoots
      = [] :=
    List.eq_nil_iff_forall_not_mem.mpr (fun r hr => by
      obtain ⟨c, hc, _, hout⟩ := hF r hr
      exact h c hc hout)
  simp [ApplyPoolIntoRepo, List.filter_append, hT, hempty]

/-- C2 witness: the unmet-dependency pool extended with a transitive
dependent — no change rejects permanently, and the run fires no hook. -/
theorem c2_no_hook_witness :
    (∀ c ∈ unmetChainPool.changes,
      c.applyOutcome ≠ ApplyOutcome.rejectedPermanently) ∧
    (ApplyPoolIntoRepo landedNone unmetChainPool "fakebuildroot").trace.filter
      Event.isHook = [] :=
  ⟨by decide,
    c2_no_hook_without_permanent_rejection landedNone unmetChainPool
      "fakebuildroot" (by decide)⟩

/-- Classifying an apply outcome of a change not yet applied preserves
distinctness of the applied list. -/
lemma applyChange_applied_nodup (c : Change) (st : ApplyState)
    (h : st.applied.Nodup) (hc : c.revision ∉ st.applied) :
    (applyChange c st).applied.Nodup := by
  obtain ⟨rev, proj, deps, out⟩ := c
  cases out <;> simp_all [applyChange, List.nodup_append]

/-- The dependency scan preserves distinctness of the applied list. -/
lemma resolveDeps_applied_nodup (landed : String → String → Bool)
    (pool : List Change) (project : String) (deps : List String)
    (st : ApplyState) (h : st.applied.Nodup) :
    (resolveDeps landed pool project deps st).1.applied.Nodup := by
  induction deps generalizing st with
  | nil => exact h
  | cons d rest ih =>
    simp only [resolveDeps]
    cases hfind : findInPool pool d with
    | some dc =>
      have hrev : dc.revision = d := by
        have := List.find?_some hfind
        simpa using this
      by_cases h1 : st.applied.contains d = true
      · simp only [h1, if_true]
        exact ih st h
      · simp only [h1, if_false, Bool.false_eq_true]
        by_cases h2 : (st.failedRoots.contains d || st.blocked.contains d ||
            st.deferred.contains d) = true
        · simp only [h2, if_true]
          exact h
        · simp only [h2, if_false, Bool.false_eq_true]
          have hd : d ∉ st.applied := by simpa using h1
          have hn1 : (applyChange dc st).applied.Nodup :=
            applyChange_applied_nodup dc st h (by rw [hrev]; exact hd)
          by_cases h3 : (applyChange dc st).applied.contains d = true
          · simp only [h3, if_true]
            exact ih _ hn1
          · simp only [h3, if_false, Bool.false_eq_true]
            exact hn1
    | none =>
      by_cases hl : landed project d = true
      · simp only [hl, if_true]
        exact ih _ h
      · simp only [hl, if_false, Bool.false_eq_true]
        exact h

/-- One top-level walk step preserves distinctness of the applied
list. -/
lemma processChange_applied_nodup (landed : String → String → Bool)
    (pool : List Change) (buildRoot : String) (st : ApplyState) (c : Change)
    (h : st.applied.Nodup) :
    (processChange landed pool buildRoot st c).applied.Nodup := by
  simp only [processChange]
  by_cases h0 : st.touched c.revision = true
  · simp only [h0, if_true]
    exact h
  · simp only [h0, if_false, Bool.false_eq_true]
    have hn1 := resolveDeps_applied_nodup landed pool c.project c.gerritDeps
      { st with trace := st.trace ++ [Event.queryDeps c.revision buildRoot] } h
    by_cases h1 : (resolveDeps landed pool c.project c.gerritDeps
        { st with
          trace := st.trace ++ [Event.queryDeps c.revision buildRoot] }).2
        = true
    · simp only [h1, if_true]
      by_cases h2 : (resolveDeps landed pool c.project c.gerritDeps
          { st with
            trace := st.trace ++ [Event.queryDeps c.revision buildRoot] }).1.touched
          c.revision = true
      · simp only [h2, if_true]
        exact hn1
      · simp only [h2, if_false, Bool.false_eq_true]
        have hc : c.revision ∉ (resolveDeps landed pool c.project c.gerritDeps
            { st with
              trace := st.trace ++ [Event.queryDeps c.revision buildRoot] }).1.applied := by
          simp [ApplyState.touched] at h2
          exact h2.1.1.1
        exact applyChange_applied_nodup c _ hn1 hc
    · simp only [h1, if_false, Bool.false_eq_true]
      exact hn1

/-- The whole pool walk preserves distinctness of the applied list. -/
lemma foldl_applied_nodup (landed : String → String → Bool)
    (pool : List Change) (buildRoot : String) (l : List Change)
    (st : ApplyState) (h : st.applied.Nodup) :
    (l.foldl (processChange landed pool buildRoot) st).applied.Nodup := by
  induction l generalizing st with
  | nil => exact h
  | cons c cs ih =>
    simp only [List.foldl_cons]
    exact ih _ (processChange_applied_nodup landed pool buildRoot st c h)

/-- C4 (amended): in every run each change is applied at most once (the
applied list has no duplicates), and in the concrete diamond scenario —
changes 1, 2, 3, 4 received in that order with 1 depending on 2, 3 on 1
and 2, and 4 independent — the apply order (both the final applied list
and the order of apply attempts) is 2, 1, 3, 4, each dependency before
its dependent and independent chains in pool order; the
strictly-before-dependent guarantee does not extend to a change applied
on behalf of another change's dependency, which may be applied before
its own declared dependencies. -/
theorem c4_apply_at_most_once_and_diamond_order :
    (∀ (landed : String → String → Bool) (pool : ValidationPool)
      (buildRoot : String),
      (ApplyPoolIntoRepo landed pool buildRoot).applied.Nodup) ∧
    complexRun.applied =
      ["ChangeId2", "ChangeId1", "ChangeId3", "ChangeId4"] ∧
    complexRun.trace.filter Event.isApply =
      [Event.applyAttempt "ChangeId2", Event.applyAttempt "ChangeId1",
       Event.applyAttempt "ChangeId3", Event.applyAttempt "ChangeId4"] := by
  refine ⟨fun landed pool buildRoot => ?_, by decide, by decide⟩
  simp only [ApplyPoolIntoRepo]
  exact foldl_applied_nodup landed pool.changes buildRoot pool.changes
    initState (by simp [initState])

end Chromite
